import Mathlib

/-!
Shallow embedding of `src/command_modules/azure-cli-interactive/azclishell/app.py`
(the azure-cli interactive shell): the sigil classifier (`_special_cases`), the
query injector (`handle_jmespath_query`), the scope manager (`set_scope`,
`handle_scoping_input`), the tutorial stepper (`handle_example`, `example_repl`),
the execution dispatcher (`cli_execute`), the example paginator
(`_space_examples`) and one iteration of the main loop (`run`).

Python strings are modelled as Lean `String`s (a `String` is a list of unicode
characters, matching Python 2's `unicode`/Python 3's `str` under
`from __future__ import unicode_literals`).  The Python string primitives the
source uses (`split`, `strip`, `join`, `partition`, `replace`, slicing, `in`)
are modelled below by structurally recursive functions over `String.data` so
that every definition evaluates inside the kernel.

External collaborators (the jmespath library, the command tree oracle, the
metadata gatherer, the external engine's `invoke`, json serialisation, the
terminal) are opaque parameters collected in environment structures; the
classifier and dispatcher themselves are translated line by line from the
source.
-/

/-- Python whitespace test for one character (`str.split()` / `str.strip()`
split and strip on whitespace characters). -/
def isWS (c : Char) : Bool := c.isWhitespace

/-- Word scanner for Python `str.split()` (no separator argument): maximal
runs of non-whitespace characters; `acc` is the current word accumulated in
reverse. -/
def wordsAux : List Char → List Char → List (List Char)
  | [], acc => if acc = [] then [] else [acc.reverse]
  | c :: cs, acc =>
    if isWS c then
      if acc = [] then wordsAux cs []
      else acc.reverse :: wordsAux cs []
    else wordsAux cs (c :: acc)

/-- The words of a character list, as produced by Python `str.split()`. -/
def words (l : List Char) : List (List Char) := wordsAux l []

/-- Python `s.split()` (no argument): whitespace-separated words, no empties. -/
def pySplit (s : String) : List String := (words s.data).map String.mk

/-- Python `' '.join(ws)`. -/
def pyJoin : List String → String
  | [] => ""
  | [w] => w
  | w :: ws => w ++ " " ++ pyJoin ws

/-- Python `sep.join(ws)` for an arbitrary separator (used with `'\n'`). -/
def pyJoinWith (sep : String) : List String → String
  | [] => ""
  | [w] => w
  | w :: ws => w ++ sep ++ pyJoinWith sep ws

/-- Python `''.join(ws)`. -/
def pyConcat : List String → String
  | [] => ""
  | w :: ws => w ++ pyConcat ws

/-- Both-ends whitespace strip on a character list (Python `str.strip()`). -/
def stripList (l : List Char) : List Char :=
  ((l.dropWhile isWS).reverse.dropWhile isWS).reverse

/-- Python `s.strip()`. -/
def pyStrip (s : String) : String := String.mk (stripList s.data)

/-- Python `s.rstrip()`. -/
def pyRStrip (s : String) : String :=
  String.mk (s.data.reverse.dropWhile isWS).reverse

/-- Python `s.strip('\n')` (used by the tutorial sub-REPL). -/
def stripNL (s : String) : String :=
  String.mk ((s.data.dropWhile (· = '\n')).reverse.dropWhile (· = '\n')).reverse

/-- Does `l` start with the pattern `pat`? -/
def listStartsWith : List Char → List Char → Bool
  | [], _ => true
  | _ :: _, [] => false
  | p :: ps, x :: xs => p == x && listStartsWith ps xs

/-- Python `s.startswith(pat)`. -/
def pyStartsWith (s pat : String) : Bool := listStartsWith pat.data s.data

/-- Find the first occurrence of the (nonempty) pattern `pat` in `l`:
`some (before, after)` where `l = before ++ pat ++ after` at the first match,
`none` when `pat` does not occur. -/
def splitFirstAux (pat : List Char) : List Char → Option (List Char × List Char)
  | [] => none
  | x :: xs =>
    if listStartsWith pat (x :: xs) then some ([], (x :: xs).drop pat.length)
    else
      match splitFirstAux pat xs with
      | none => none
      | some (b, a) => some (x :: b, a)

/-- First occurrence of `pat` in `s`, as the pieces before and after it. -/
def splitFirst (pat s : String) : Option (String × String) :=
  match splitFirstAux pat.data s.data with
  | none => none
  | some (b, a) => some (String.mk b, String.mk a)

/-- Python `pat in s` (substring containment; the empty string is contained
in every string). -/
def hasSubstr (s pat : String) : Bool :=
  pat.data.isEmpty || (splitFirstAux pat.data s.data).isSome

/-- Python `s.partition(sep)[0]`: the text before the first occurrence of
`sep` (all of `s` when `sep` does not occur). -/
def partitionBefore (s sep : String) : String :=
  match splitFirstAux sep.data s.data with
  | none => s
  | some (b, _) => String.mk b

/-- Python `s.partition(sep)[2]`: the text after the first occurrence of
`sep` (`""` when `sep` does not occur). -/
def partitionAfter (s sep : String) : String :=
  match splitFirstAux sep.data s.data with
  | none => ""
  | some (_, a) => String.mk a

/-- One step of Python `str.replace(old, new)` driven by fuel.  Each step
consumes at least one character of the list, so fuel = initial length never
truncates the scan; the fuel only makes the recursion structural. -/
def replaceFuel (pat repl : List Char) : Nat → List Char → List Char
  | 0, l => l
  | _ + 1, [] => []
  | fuel + 1, x :: xs =>
    if !pat.isEmpty && listStartsWith pat (x :: xs) then
      repl ++ replaceFuel pat repl fuel ((x :: xs).drop pat.length)
    else x :: replaceFuel pat repl fuel xs

/-- Python `s.replace(old, new)`: replace every (non-overlapping, leftmost)
occurrence. -/
def pyReplace (s pat repl : String) : String :=
  String.mk (replaceFuel pat.data repl.data s.data.length s.data)

/-- Python character-slice `s[n:]`. -/
def strDrop (s : String) (n : Nat) : String := String.mk (s.data.drop n)

/-- Python character-slice `s[:n]`. -/
def strTake (s : String) (n : Nat) : String := String.mk (s.data.take n)

/-- Python `len(s)` (a character count, as for unicode strings). -/
def strLen (s : String) : Nat := s.data.length

/-- Python `s.lower()` (ASCII case folding suffices for the `'az'` check). -/
def pyLower (s : String) : String := String.mk (s.data.map Char.toLower)

/-- Python `s.split(' ', 1)[0]`: the text before the first literal space. -/
def beforeFirstSpace (s : String) : String :=
  String.mk (s.data.takeWhile (· ≠ ' '))

/-- Python `s.count('\n')`. -/
def countNL (s : String) : Nat := s.data.count '\n'

/-- Splitter for Python `s.split('\n')` (keeps empty pieces). -/
def splitNLAux : List Char → List Char → List (List Char)
  | [], cur => [cur.reverse]
  | c :: cs, cur =>
    if c = '\n' then cur.reverse :: splitNLAux cs []
    else splitNLAux cs (c :: cur)

/-- Python `s.split('\n')`. -/
def splitNL (s : String) : List String := (splitNLAux s.data []).map String.mk

/-- Digit-run parser for Python `int(s)`. -/
def digitsToNat : List Char → Option Nat
  | [] => none
  | ds =>
    if ds.all (·.isDigit) then
      some (ds.foldl (fun n c => 10 * n + (c.toNat - '0'.toNat)) 0)
    else none

/-- Python `int(s)` on an already-stripped string: an optional sign followed
by at least one digit (exotic forms such as underscores are not used by the
shell's inputs). `none` models the `ValueError`. -/
def pyParseInt (s : String) : Option Int :=
  match s.data with
  | '-' :: ds => (digitsToNat ds).map (fun n => -(n : Int))
  | '+' :: ds => (digitsToNat ds).map (fun n => (n : Int))
  | ds => (digitsToNat ds).map (fun n => (n : Int))

/-- `int(math.ceil(a / b))` for positive `b` (the float division and `ceil`
are exact for the magnitudes a terminal can produce). -/
def pyCeilDiv (a b : Nat) : Nat := (a + b - 1) / b

/-! ## Data model: sigils, environments, session state, effects -/

/-- The sigil table `SELECT_SYMBOL` (azclishell.configuration, configurable by
the host): the six markers the classifier recognises. -/
structure Sigils where
  outside : String
  exit_code : String
  query : String
  exampleSym : String   -- `SELECT_SYMBOL['example']` (`example` is a Lean keyword)
  scope : String
  unscope : String

/-- Exceptions the query machinery can raise, following the exception
hierarchy of the external jmespath library and of knack:
`jmespath.exceptions.ParseError` (syntax errors, including lexer and
incomplete-expression errors), `knack.util.CLIError`, and jmespath errors
that are *not* `ParseError` subclasses — e.g. `JMESPathTypeError` and
`UnknownFunctionError`, raised while evaluating a syntactically valid
expression.  `unbound` models Python's `NameError`/`ValueError` for
non-jmespath slips. -/
inductive QErr
  | parse (msg : String)
  | cli (msg : String)
  | other (msg : String)
  | unbound (msg : String)
deriving DecidableEq, Repr

/-- Outcome of `jmespath.search(expr, data)`: a value, or a raised error. -/
inductive SearchOutcome (J : Type)
  | ok (j : J)
  | err (e : QErr)
deriving DecidableEq, Repr

/-- Observable side effects of the classifier and dispatcher (prints to the
output sink, directory changes, thread spawns, a recursive Execution
Dispatcher call, routing of a result).  Telemetry calls are external no-ops
and are not recorded. -/
inductive Effect
  | print (s : String)
  | chdir (path : String)
  | showVersion
  | execute (cmd : String)
  | sinkWrite
  | formatterOut
  | setFeedback
  | spawnExecThread (args : List String)
  | spawnProgressThread
deriving DecidableEq, Repr

/-- The result object returned by `cli_ctx.invoke` (azure-cli's
`CommandResultItem`): an object carrying a `.result` attribute that may be
`None`. -/
structure ResObj (J : Type) where
  result : Option J
deriving DecidableEq, Repr

/-- Outcome of `self.cli_ctx.invoke(args)` (external engine): a normal return
(possibly `None`), a raised `Exception` (whose `handle_exception` conversion
is the carried code), or a raised `SystemExit` with the carried code. -/
inductive InvokeOutcome (J : Type)
  | ok (r : Option (ResObj J))
  | exc (code : Int)
  | sysExit (code : Int)
deriving DecidableEq, Repr

/-- Ambient collaborators of the shell (`self.…` context in `app.py`).
`J` is the type of jmespath/result values (opaque JSON-like data).
* `search` models `jmespath.search`;
* `pystr` models Python `str(·)` on a result value;
* `dumps` models `json.dumps(v, sort_keys=True, indent=2)`;
* `dumpsStr` models `json.dumps` on a Python string;
* `truthy` models Python truthiness of a result value (`self.last.result`);
* `inTree` models `in_tree(self.completer.command_tree, ·)`;
* `command_examples` models `self.completer.command_examples`;
* `invoke` models `self.cli_ctx.invoke`;
* `hasOutputSink` models the truthiness of `self.output`;
* `answers` is the tutorial sub-REPL transcript: one entry per
  `example_cli.run()` call, `none` for a cancelled prompt;
* `linesep` is `os.linesep`;
* `clear_word` is `CLEAR_WORD`; `history_clear_cmd` is the
  `'echo -n "" > <history file>'` command built from the configuration. -/
structure ShellEnv (J : Type) where
  sigils : Sigils
  search : String → J → SearchOutcome J
  pystr : J → String
  dumps : J → String
  dumpsStr : String → String
  truthy : J → Bool
  inTree : String → Bool
  command_examples : String → Option (List (String × String))
  invoke : List String → InvokeOutcome J
  hasOutputSink : Bool
  answers : List (Option String)
  linesep : String
  clear_word : String
  history_clear_cmd : String

/-- Mutable session state touched by the classifier and dispatcher:
`default_command`, `last_exit`, `last` (the stored result object) and
`user_feedback`. -/
structure ShellState (J : Type) where
  default_command : String
  last_exit : Int
  last : Option (ResObj J)
  user_feedback : Bool
deriving DecidableEq, Repr

/-- `Modelled from the spec:` `parse_quotes` (azclishell.util, not under
`src/`) produces "the full argument vector" of a command line.  Modelled as
whitespace tokenization; the quoted-segment handling of the real helper is
not exercised by any input below. -/
def parse_quotes (s : String) : List String := pySplit s

/-! ## Query Injector: `handle_jmespath_query` (app.py lines 535-574) -/

/-- The regex callback `jmespath_query(match)` of `handle_jmespath_query`:
`match` is the whole text from the first query sigil to the end of the
argument; a bare sigil yields `str(self.last.result)`, otherwise the text
after the sigil is evaluated against the last result and `str`-ed. -/
def jmespath_query (env : ShellEnv J) (last_result : J) (m : String) :
    SearchOutcome String :=
  if m == env.sigils.query then .ok (env.pystr last_result)
  else
    match env.search (strDrop m (strLen env.sigils.query)) last_result with
    | .ok r => .ok (env.pystr r)
    | .err e => .err e

/-- The per-argument substitution `sub_result(arg)`:
`json.dumps(re.sub(r'<sigil>.*', jmespath_query, arg))`.  The regex replaces
the whole suffix of the argument starting at the first occurrence of the
sigil (arguments are whitespace-free tokens, so `.` never hits a newline);
an argument without the sigil is only re-serialised. -/
def sub_result (env : ShellEnv J) (last_result : J) (arg : String) :
    Except QErr String :=
  match splitFirst env.sigils.query arg with
  | none => .ok (env.dumpsStr arg)
  | some (pre, suf) =>
    match jmespath_query env last_result (env.sigils.query ++ suf) with
    | .ok rep => .ok (env.dumpsStr (pre ++ rep))
    | .err e => .error e

/-- The usage-error message printed when several arguments are given and the
first one starts with the query sigil. -/
def queryUsageMessage (env : ShellEnv J) : String :=
  let q := env.sigils.query
  "Usage Error: " ++ env.linesep ++
  "1. Use " ++ q ++ " stand-alone to display previous result with optional filtering " ++
  "(Ex: " ++ q ++ "[jmespath query])" ++
  env.linesep ++ "OR:" ++ env.linesep ++
  "2. Use " ++ q ++ " to query the previous result for argument values " ++
  "(Ex: group show --name " ++ q ++ "[jmespath query])"

/-- The body of `handle_jmespath_query`'s `try` block: which effects happen,
or which exception is raised.  The source binds `result` only inside the two
guarded branches of the single-argument case; a single argument that merely
*contains* the sigil leaves `result` unbound and the `print` raises
(`unbound`).  `args[0]` on an empty vector likewise raises (`unbound`). -/
def queryTryBody (env : ShellEnv J) (last_result : J) (args : List String) :
    Except QErr (List Effect) :=
  match args with
  | [] => .error (.unbound "IndexError: list index out of range")
  | a :: rest =>
    if rest.isEmpty then
      if a == env.sigils.query then
        .ok [.print (env.dumps last_result)]
      else if pyStartsWith a env.sigils.query then
        match env.search (strDrop a (strLen env.sigils.query)) last_result with
        | .ok r => .ok [.print (env.dumps r)]
        | .err e => .error e
      else .error (.unbound "NameError: name 'result' is not defined")
    else if pyStartsWith a env.sigils.query then
      .ok [.print (queryUsageMessage env)]
    else
      match (a :: rest).mapM (sub_result env last_result) with
      | .ok subs => .ok [.execute (pyJoin subs)]
      | .error e => .error e

/-- `handle_jmespath_query(self, args)`: runs the try body; a
`jmespath.exceptions.ParseError` or `CLIError` is caught and reported as
`"Invalid Query Input: <message>"` with the line treated as handled
(`continue_flag = True`); any other exception propagates out of the handler
(the `.error` case).  On success returns the effects and `continue_flag`. -/
def handle_jmespath_query (env : ShellEnv J) (last_result : J)
    (args : List String) : Except QErr (List Effect × Bool) :=
  match queryTryBody env last_result args with
  | .ok effs => .ok (effs, true)
  | .error (.parse m) => .ok ([.print ("Invalid Query Input: " ++ m)], true)
  | .error (.cli m) => .ok ([.print ("Invalid Query Input: " ++ m)], true)
  | .error e => .error e

/-! ## Scope Manager: `set_scope` (lines 387-394) and
`handle_scoping_input` (lines 576-622) -/

/-- `set_scope(self, value)` (app.py 387-394): append `value` to
`default_command`, space-separated when it is already non-empty.  The
display-only call into `azclishell.layout.set_scope` is not modelled. -/
def set_scope (d value : String) : String :=
  if d ≠ "" then d ++ " " ++ value else d ++ value

/-- The `tree_val` candidate built before the oracle check
(`self.default_command + " " + value` when a scope is active, else
`value`). -/
def treeCand (d value : String) : String :=
  if d ≠ "" then d ++ " " ++ value else value

/-- The unscope branch of `handle_scoping_input` (lines 610-615): pop the
last token, keeping a leading space, then collapse to `""` when nothing but
whitespace is left. -/
def popScope (d : String) : String :=
  if pyStrip (" " ++ pyJoin ((pySplit d).dropLast)) = ""
  then pyStrip (" " ++ pyJoin ((pySplit d).dropLast))
  else " " ++ pyJoin ((pySplit d).dropLast)

/-- Result of `handle_scoping_input`: the returned `continue_flag` and
`cmd`, the mutated `default_command`, and the messages printed. -/
structure ScopeOut where
  continue_flag : Bool
  cmd : String
  default_command : String
  prints : List String
deriving DecidableEq, Repr

/-- The `while default_split:` loop of `handle_scoping_input`
(lines 590-621), one token per iteration. -/
def scopeLoop (env : ShellEnv J) (text : String) :
    List String → ScopeOut → ScopeOut
  | [], st => st
  | v0 :: rest, st =>
    let value := if text = "" then "" else v0
    if env.inTree (pyStrip (treeCand st.default_command value)) then
      scopeLoop env text rest
        { st with
          default_command := set_scope st.default_command value,
          cmd := pyReplace st.cmd env.sigils.scope "",
          prints := st.prints ++ ["defaulting: " ++ value] }
    else if env.sigils.unscope == v0 && (pySplit st.default_command).length > 0 then
      let popped := (pySplit st.default_command).getLastD ""
      scopeLoop env text rest
        { st with
          default_command := popScope st.default_command,
          prints := st.prints ++ ["unscoping: " ++ popped] }
    else if !(hasSubstr text env.sigils.unscope) then
      scopeLoop env text rest
        { st with prints := st.prints ++ ["Scope must be a valid command"] }
    else scopeLoop env text rest st

/-- `handle_scoping_input(self, continue_flag, cmd, text)` (lines 576-622).
The incoming `continue_flag` is overwritten with `True` unconditionally. -/
def handle_scoping_input (env : ShellEnv J) (_continue_flag : Bool)
    (cmd text d : String) : ScopeOut :=
  let default_split := pySplit (partitionAfter text env.sigils.scope)
  let cmd1 := pyReplace cmd env.sigils.scope ""
  if default_split.isEmpty then
    { continue_flag := true, cmd := cmd1, default_command := "",
      prints := ["unscoping all"] }
  else
    scopeLoop env text default_split
      { continue_flag := true, cmd := cmd1, default_command := d, prints := [] }

/-! ## Tutorial Stepper: `handle_example` (lines 396-430) and
`example_repl` (lines 432-471) -/

/-- The fill-token scan of `handle_example` (lines 416-428): walks the words
of the example, accumulating `example_no_fill` (note the source appends a
flag word twice when it is the first flag word) and recording the word index
of the first flag-marked token.  The `if not starting_index:` test is the
source's truthiness test: `None` and `0` both trigger reassignment. -/
def exampleScan : List String → Nat → Bool → Option Nat → String →
    String × Option Nat
  | [], _, _, si, acc => (acc, si)
  | w :: ws, counter, flag_fill, si, acc =>
    let acc1 := if flag_fill then acc ++ w ++ " " else acc
    if pyStartsWith w "-" then
      let acc2 := acc1 ++ w ++ " "
      let si1 := if si.getD 0 == 0 then some counter else si
      exampleScan ws (counter + 1) false si1 acc2
    else
      exampleScan ws (counter + 1) flag_fill si acc1

/-- The interactive `while start_index < len(text.split()):` loop of
`example_repl` (lines 447-465).  Each iteration consumes one entry of the
`answers` transcript (`none` = a cancelled prompt, returning `("", True)`);
an exhausted transcript leaves the interaction unfinished and returns the
command assembled so far (no claim below exercises that case). -/
def exampleLoop (d text : String) (flag : Bool) :
    List (Option String) → Nat → String → String × Bool
  | answers, si, cmd =>
    if si < (pySplit text).length then
      match answers with
      | [] => (cmd, flag)
      | ans :: rest =>
        let cmd1 := if d ≠ "" then pyReplace cmd (d ++ " ") "" else cmd
        match ans with
        | none => ("", true)
        | some answer =>
          if stripNL answer == stripNL cmd1 then exampleLoop d text flag rest si cmd1
          else if (pySplit answer).length > 1 then
            exampleLoop d text flag rest (si + 1)
              (cmd1 ++ " " ++ (pySplit answer).getLastD "" ++ " " ++
               pyJoin (((pySplit text).drop (si + 1)).take 1))
          else exampleLoop d text flag rest si cmd1
    else (cmd, flag)

/-- `example_repl(self, text, example, start_index, continue_flag)`
(lines 432-471).  `if start_index:` is a truthiness test: both `None` and
`0` short-circuit, returning the text unchanged without any prompt. -/
def example_repl (env : ShellEnv J) (d text _example : String)
    (start_index : Option Nat) (continue_flag : Bool) : String × Bool :=
  if start_index.getD 0 ≠ 0 then
    let si := start_index.getD 0 + 1
    let cmd := pyJoin ((pySplit text).take si)
    exampleLoop d text continue_flag env.answers si cmd
  else (text, continue_flag)

/-- `handle_example(self, text, continue_flag)` (lines 396-430).  The
`except ValueError` arm prints and then executes `return ""`: the caller
unpacks the result into two variables, so that path raises a `ValueError`
at the call site (modelled as `.error`). -/
def handle_example (env : ShellEnv J) (d text : String)
    (continue_flag : Bool) : List Effect × Except String (String × Bool) :=
  let cmd := pyRStrip (partitionBefore text env.sigils.exampleSym)
  let numStr := pyStrip (partitionAfter text env.sigils.exampleSym)
  match pyParseInt numStr with
  | none =>
    ([.print "An Integer should follow the colon"],
     .error "ValueError: not enough values to unpack (expected 2, got 0)")
  | some n =>
    let num : Int := n - 1
    let cont : String → List Effect × Except String (String × Bool) :=
      fun example0 =>
        let ex := pyReplace example0 "az" ""
        let scan := exampleScan (pySplit ex) 0 true none ""
        ([], .ok (example_repl env d scan.1 ex scan.2 continue_flag))
    match env.command_examples cmd with
    | some exs =>
      if 0 ≤ num ∧ num < (exs.length : Int) then
        cont (pyReplace (exs.getD num.toNat ("", "")).2 "\n" "")
      else ([.print "Invalid example number"], .ok ("", true))
    | none => cont ""

/-! ## Execution Dispatcher: `cli_execute` (lines 624-674) -/

/-- `cli_execute(self, cmd)` (lines 624-674).  The azure profile/session
file loads are external no-ops; `handle_exception` and `int(ex.code)` are
carried inside `InvokeOutcome`.  Returns the new session state and the
effects (feedback flag, thread spawns, result routing). -/
def cli_execute (env : ShellEnv J) (st : ShellState J) (cmd : String) :
    ShellState J × List Effect :=
  let args := parse_quotes cmd
  let fb := args.length > 0 && args.headD "" == "feedback"
  let st1 := if fb then { st with user_feedback := false } else st
  let effs1 : List Effect := if fb then [.setFeedback] else []
  if args.contains "--progress" then
    let args1 := args.erase "--progress"
    ({ st1 with last_exit := 0 },
     effs1 ++ [.spawnExecThread args1, .spawnProgressThread])
  else
    match env.invoke args with
    | .ok result =>
      let st2 := { st1 with last_exit := 0 }
      match result with
      | some robj =>
        if robj.result.isSome then
          if env.hasOutputSink then (st2, effs1 ++ [.sinkWrite])
          else ({ st2 with last := some robj }, effs1 ++ [.formatterOut])
        else (st2, effs1)
      | none => (st2, effs1)
    | .exc code => ({ st1 with last_exit := code }, effs1)
    | .sysExit code => ({ st1 with last_exit := code }, effs1)

/-! ## Sigil Classifier: `handle_cd` (lines 167-176) and
`_special_cases` (lines 474-533) -/

/-- `handle_cd(self, cmd)` (lines 167-176): tilde/environment expansion and
the `os.chdir` error report are external; the effect records the raw target. -/
def handle_cd (cmdArgs : List String) : List Effect :=
  if cmdArgs.length ≠ 2 then [.print "Invalid syntax: cd path"]
  else [.chdir (cmdArgs.getD 1 "")]

/-- Truthiness of `self.last and self.last.result` (the guard of the query
branch). -/
def lastTruthy (env : ShellEnv J) (st : ShellState J) : Bool :=
  match st.last with
  | none => false
  | some o =>
    match o.result with
    | none => false
    | some j => env.truthy j

/-- Message of an escaped query exception, as seen by the main loop. -/
def QErr.describe : QErr → String
  | .parse m => "ParseError: " ++ m
  | .cli m => "CLIError: " ++ m
  | .other m => "JMESPathError: " ++ m
  | .unbound m => m

/-- Result of `_special_cases`: the four returned values plus the mutated
session state and the effects performed on the way. -/
structure SCResult (J : Type) where
  break_flag : Bool
  continue_flag : Bool
  outside : Bool
  cmd : String
  state : ShellState J
  effects : List Effect

/-- `_special_cases(self, cmd, outside)` (lines 474-533), translated branch
by branch.  `args` and `cmd_stripped` are taken from the *original* line
before the `az` prefix strip and the `default_command` prepend, exactly as
in the source.  An exception escaping `handle_jmespath_query` or the
tutorial unpack propagates (`.error`). -/
def special_cases (env : ShellEnv J) (st : ShellState J) (cmd0 : String)
    (outside0 : Bool) : Except String (SCResult J) :=
  let args := parse_quotes cmd0
  let cmd_stripped := pyStrip cmd0
  let cmd1 :=
    if cmd_stripped ≠ "" && pyLower (beforeFirstSpace cmd0) == "az" then
      pyJoin ((pySplit cmd0).drop 1)
    else cmd0
  let cmd2 :=
    if st.default_command ≠ "" then st.default_command ++ " " ++ cmd1 else cmd1
  let break_flag := cmd_stripped == "quit" || cmd_stripped == "exit"
  let outside1 :=
    if cmd_stripped == "quit" || cmd_stripped == "exit" then outside0
    else if cmd_stripped == "clear-history" then true
    else if cmd_stripped == env.clear_word then true
    else outside0
  let cmd3 :=
    if cmd_stripped == "quit" || cmd_stripped == "exit" then cmd2
    else if cmd_stripped == "clear-history" then env.history_clear_cmd
    else if cmd_stripped == env.clear_word then env.clear_word
    else cmd2
  if cmd_stripped ≠ "" then
    if strTake cmd_stripped 1 == env.sigils.outside then
      let cmd4 := strDrop cmd_stripped 1
      let cdHit := pyStrip cmd4 ≠ "" && (pySplit cmd4).headD "" == "cd"
      let effs := if cdHit then handle_cd (parse_quotes cmd4) else []
      .ok ⟨break_flag, cdHit, true, cmd4, st, effs⟩
    else if strTake cmd_stripped 1 == env.sigils.exit_code then
      let meaning := if st.last_exit == 0 then "Success" else "Failure"
      .ok ⟨break_flag, true, outside1, cmd3, st,
           [.print (meaning ++ ": " ++ toString st.last_exit)]⟩
    else if hasSubstr cmd_stripped env.sigils.query && lastTruthy env st then
      match st.last with
      | some o =>
        match o.result with
        | some j =>
          match handle_jmespath_query env j args with
          | .ok (effs, cont) => .ok ⟨break_flag, cont, outside1, cmd3, st, effs⟩
          | .error e => .error e.describe
        | none => .ok ⟨break_flag, false, outside1, cmd3, st, []⟩
      | none => .ok ⟨break_flag, false, outside1, cmd3, st, []⟩
    else if args.headD "" == "--version" || args.headD "" == "-v" then
      .ok ⟨break_flag, true, outside1, cmd3, st, [.showVersion]⟩
    else if hasSubstr cmd3 "|" || hasSubstr cmd3 ">" then
      .ok ⟨break_flag, false, true, "az " ++ cmd3, st, []⟩
    else if hasSubstr cmd3 env.sigils.exampleSym then
      let he := handle_example env st.default_command cmd3 false
      match he.2 with
      | .ok res => .ok ⟨break_flag, res.2, outside1, res.1, st, he.1⟩
      | .error m => .error m
    else if strLen cmd_stripped > 2 && strTake cmd_stripped 2 == env.sigils.scope then
      let so := handle_scoping_input env false cmd3 cmd_stripped st.default_command
      .ok ⟨break_flag, so.continue_flag, outside1, so.cmd,
           { st with default_command := so.default_command },
           so.prints.map .print⟩
    else
      .ok ⟨break_flag, false, outside1, cmd3, st, []⟩
  else
    .ok ⟨break_flag, false, outside1, cmd3, st, []⟩

/-! ## One iteration of the main loop: `run` (lines 693-726) -/

/-- Where one submitted line ends up after classification. -/
inductive Dispatch
  | engine (cmd : String)
  | osShell (cmd : String)
  | noDispatch
  | exitShell
deriving DecidableEq, Repr

/-- Observable outcome of one iteration of `run`'s `while True:` body for a
submitted line: the history append (if any), the dispatch target, the state
after classification, and the classifier's effects. -/
structure RunIter (J : Type) where
  historyAppended : Option String
  dispatch : Dispatch
  state : ShellState J
  effects : List Effect

/-- One iteration of `run` (lines 693-726) on the submitted `text`:
an empty line only redraws the prompt; otherwise `_special_cases` runs
first, then the line is appended to history exactly when `default_command`
is empty *after* classification, then the flags choose between exiting,
continuing, the OS shell and the engine (`cli_execute`, whose own state
updates are modelled separately). -/
def run_iteration (env : ShellEnv J) (st : ShellState J) (text : String) :
    Except String (RunIter J) :=
  if text == "" then .ok ⟨none, .noDispatch, st, []⟩
  else
    match special_cases env st text false with
    | .error e => .error e
    | .ok r =>
      let hist := if r.state.default_command == "" then some text else none
      if r.break_flag then .ok ⟨hist, .exitShell, r.state, r.effects⟩
      else if r.continue_flag then .ok ⟨hist, .noDispatch, r.state, r.effects⟩
      else if r.outside then .ok ⟨hist, .osShell r.cmd, r.state, r.effects⟩
      else .ok ⟨hist, .engine r.cmd, r.state, r.effects⟩

/-! ## Paginator: `_space_examples` (lines 208-237) -/

/-- The `examples_with_index` text assembled by `_space_examples`
(lines 210-217): `"[i+1] " + header + body` for each example pair,
concatenated. -/
def exampleText (list_examples : List (List String)) : String :=
  pyConcat (list_examples.enum.filterMap fun p =>
    if p.2.length > 1 then
      some ("[" ++ toString (p.1 + 1) ++ "] " ++ p.2.headD "" ++ p.2.getD 1 "")
    else none)

/-- `_space_examples(self, list_examples, rows, section_value)`
(lines 208-237).  `PART_SCREEN_EXAMPLE = .3`, so the trigger conditions
`num_newline > rows * .3` and `rows > 3.0` are the exact integer tests
`10 * N > 3 * rows` and `rows > 3`, and `math.floor(float(rows) * .3)` is
`3 * rows / 10` (the float products round to the exact values for every
terminal-sized `rows`).  When `(section_value - 1) * len_of_excerpt`
exceeds `num_newline`, the source's `while` loop decrements `self._section`
forever without changing `section_value`; that non-terminating path is
`none`.  `section_value` is a positive page index (`self._section` starts
at 1). -/
def space_examples (list_examples : List (List String)) (rows : Nat)
    (section_value : Nat) : Option (String × Nat) :=
  let exampleS := exampleText list_examples
  let num_newline := countNL exampleS
  if 10 * num_newline > 3 * rows && rows > 3 then
    let len_of_excerpt := 3 * rows / 10
    let group := splitNL exampleS
    let e := section_value * len_of_excerpt
    let b := (section_value - 1) * len_of_excerpt
    let page_number := "\n" ++ toString section_value ++ "/" ++
      toString (pyCeilDiv num_newline len_of_excerpt)
    if e < num_newline then
      some (pyJoinWith "\n" ((group.drop b).take (e - b)) ++ "\n" ++
        page_number ++ " CTRL+Y (^) CTRL+N (v)", section_value)
    else if b > num_newline then none
    else
      some (pyJoinWith "\n" (group.drop b) ++ "\n" ++
        page_number ++ " CTRL+Y (^) CTRL+N (v)", section_value)
  else some (exampleS ++ "" ++ " CTRL+Y (^) CTRL+N (v)", section_value)

/-! ## Lemmas about the Python string model -/

theorem strData_mk (l : List Char) : (String.mk l).data = l := rfl

theorem strMk_data (s : String) : String.mk s.data = s := by cases s; rfl

theorem strData_append (a b : String) : (a ++ b).data = a.data ++ b.data := by
  cases a; cases b; rfl

theorem strData_space : (" " : String).data = [' '] := rfl

/-- A whitespace separator splits the word scan. -/
theorem wordsAux_append_space (x y : List Char) :
    ∀ acc, wordsAux (x ++ ' ' :: y) acc = wordsAux x acc ++ wordsAux y [] := by
  have hws : isWS ' ' = true := by decide
  induction x with
  | nil =>
    intro acc
    by_cases h : acc = [] <;> simp [wordsAux, hws, h]
  | cons c cs ih =>
    intro acc
    cases hc : isWS c with
    | true =>
      by_cases h : acc = [] <;> simp [wordsAux, hc, h, ih]
    | false =>
      simp [wordsAux, hc, ih]

/-- The word scan of a single nonempty whitespace-free token. -/
theorem wordsAux_token :
    ∀ t : List Char, t ≠ [] → (∀ c ∈ t, isWS c = false) →
      ∀ acc, wordsAux t acc = [acc.reverse ++ t] := by
  intro t
  induction t with
  | nil => intro h; exact absurd rfl h
  | cons c cs ih =>
    intro _ hws acc
    have hc : isWS c = false := hws c (List.mem_cons_self c cs)
    cases cs with
    | nil => simp [wordsAux, hc]
    | cons d ds =>
      have hcs : (d :: ds : List Char) ≠ [] := by simp
      have hws2 : ∀ c ∈ (d :: ds : List Char), isWS c = false := fun c h =>
        hws c (List.mem_cons_of_mem _ h)
      rw [wordsAux]
      simp only [hc, Bool.false_eq_true, if_false]
      rw [ih hcs hws2 (c :: acc)]
      simp

/-- Every word produced by the scan is nonempty and whitespace-free. -/
theorem wordsAux_valid :
    ∀ (l acc : List Char), (∀ c ∈ acc, isWS c = false) →
      ∀ w ∈ wordsAux l acc, w ≠ [] ∧ ∀ c ∈ w, isWS c = false := by
  intro l
  induction l with
  | nil =>
    intro acc hacc w hw
    by_cases h : acc = []
    · simp [wordsAux, h] at hw
    · simp [wordsAux, h] at hw
      subst hw
      refine ⟨by simpa using h, ?_⟩
      intro c hc
      exact hacc c (List.mem_reverse.mp hc)
  | cons c cs ih =>
    intro acc hacc w hw
    cases hc : isWS c with
    | true =>
      by_cases h : acc = []
      · rw [wordsAux, hc] at hw
        simp only [if_true, h, if_pos] at hw
        exact ih [] (by simp) w hw
      · rw [wordsAux, hc] at hw
        simp only [if_true, h, if_neg, if_false] at hw
        rcases List.mem_cons.mp hw with h1 | h1
        · subst h1
          refine ⟨by simpa using h, ?_⟩
          intro d hd
          exact hacc d (List.mem_reverse.mp hd)
        · exact ih [] (by simp) w h1
    | false =>
      rw [wordsAux, hc] at hw
      simp only [Bool.false_eq_true, if_false] at hw
      refine ih (c :: acc) ?_ w hw
      intro d hd
      rcases List.mem_cons.mp hd with h1 | h1
      · subst h1; exact hc
      · exact hacc d h1

/-- A Python token: nonempty and whitespace-free (what `str.split()`
produces). -/
def validTok (t : String) : Prop :=
  t.data ≠ [] ∧ ∀ c ∈ t.data, isWS c = false

instance : DecidablePred validTok := fun t => by
  unfold validTok; infer_instance

theorem pySplit_valid (s : String) : ∀ w ∈ pySplit s, validTok w := by
  intro w hw
  rcases List.mem_map.mp hw with ⟨l, hl, rfl⟩
  have := wordsAux_valid s.data [] (by simp) l hl
  exact ⟨by simpa [strData_mk] using this.1, by simpa [strData_mk] using this.2⟩

theorem pySplit_empty : pySplit "" = [] := rfl

theorem pySplit_token (t : String) (ht : validTok t) : pySplit t = [t] := by
  unfold pySplit words
  rw [wordsAux_token t.data ht.1 ht.2 []]
  simp [strMk_data]

theorem pySplit_append_space (a b : String) :
    pySplit (a ++ " " ++ b) = pySplit a ++ pySplit b := by
  unfold pySplit words
  have : (a ++ " " ++ b).data = a.data ++ ' ' :: b.data := by
    rw [strData_append, strData_append, strData_space]
    simp
  rw [this, wordsAux_append_space]
  simp

theorem pySplit_space_cons (s : String) : pySplit (" " ++ s) = pySplit s := by
  have hws : isWS ' ' = true := by decide
  unfold pySplit words
  have : (" " ++ s).data = ' ' :: s.data := by rw [strData_append, strData_space]; rfl
  rw [this, wordsAux, hws]
  simp

theorem strMk_eq_empty_iff (l : List Char) : String.mk l = "" ↔ l = [] := by
  constructor
  · intro h
    have := congrArg String.data h
    simpa [strData_mk] using this
  · intro h; subst h; rfl

theorem strData_empty : ("" : String).data = [] := rfl

theorem strAppend_empty (a : String) : a ++ "" = a := by
  apply String.ext
  rw [strData_append, strData_empty, List.append_nil]

theorem stripList_eq_nil_iff (l : List Char) :
    stripList l = [] ↔ ∀ c ∈ l, isWS c = true := by
  unfold stripList
  rw [List.reverse_eq_nil_iff, List.dropWhile_eq_nil_iff]
  constructor
  · intro h c hc
    have hsplit := List.takeWhile_append_dropWhile (p := isWS) (l := l)
    rw [← hsplit] at hc
    rcases List.mem_append.mp hc with h1 | h1
    · exact List.mem_takeWhile_imp h1
    · exact h c (List.mem_reverse.mpr h1)
  · intro h c hc
    exact h c (List.dropWhile_subset _ (List.mem_reverse.mp hc))

theorem pyStrip_eq_empty_iff (s : String) :
    pyStrip s = "" ↔ ∀ c ∈ s.data, isWS c = true := by
  unfold pyStrip
  rw [strMk_eq_empty_iff, stripList_eq_nil_iff]

theorem pyJoin_data_head (w : String) (ws : List String) :
    ∃ rest, (pyJoin (w :: ws)).data = w.data ++ rest := by
  cases ws with
  | nil => exact ⟨[], by simp [pyJoin]⟩
  | cons v vs =>
    refine ⟨' ' :: (pyJoin (v :: vs)).data, ?_⟩
    show (w ++ " " ++ pyJoin (v :: vs)).data = _
    rw [strData_append, strData_append, strData_space]
    simp

theorem pySplit_pyJoin (ws : List String) (h : ∀ w ∈ ws, validTok w) :
    pySplit (pyJoin ws) = ws := by
  induction ws with
  | nil => rfl
  | cons w vs ih =>
    cases vs with
    | nil =>
      show pySplit w = [w]
      exact pySplit_token w (h w (List.mem_cons_self _ _))
    | cons v vs2 =>
      show pySplit (w ++ " " ++ pyJoin (v :: vs2)) = _
      rw [pySplit_append_space, pySplit_token w (h w (List.mem_cons_self _ _)),
        ih (fun t ht => h t (List.mem_cons_of_mem _ ht))]
      rfl

theorem popScope_spec (d : String) :
    popScope d = if (pySplit d).dropLast = [] then ""
                 else " " ++ pyJoin ((pySplit d).dropLast) := by
  unfold popScope
  rcases hd : (pySplit d).dropLast with _ | ⟨w, rest⟩
  · have h1 : (" " ++ pyJoin ([] : List String) : String) = " " := strAppend_empty " "
    have h2 : pyStrip " " = "" := by decide
    rw [h1, h2]
    simp
  · have hw : validTok w :=
      pySplit_valid d w (List.dropLast_subset _ (hd ▸ List.mem_cons_self w rest))
    have hne : pyStrip (" " ++ pyJoin (w :: rest)) ≠ "" := by
      intro hcon
      rw [pyStrip_eq_empty_iff] at hcon
      rcases hw with ⟨hw1, hw2⟩
      rcases hc : w.data with _ | ⟨c, cs⟩
      · exact hw1 hc
      rcases pyJoin_data_head w rest with ⟨tail, htail⟩
      have hcmem : c ∈ (" " ++ pyJoin (w :: rest)).data := by
        rw [strData_append, strData_space, htail, hc]
        simp
      have hA := hcon c hcmem
      have hB := hw2 c (by rw [hc]; exact List.mem_cons_self _ _)
      simp_all
    rw [if_neg hne]
    simp

theorem pySplit_popScope (d : String) :
    pySplit (popScope d) = (pySplit d).dropLast := by
  rw [popScope_spec]
  by_cases h : (pySplit d).dropLast = []
  · rw [if_pos h, h]; rfl
  · rw [if_neg h, pySplit_space_cons,
      pySplit_pyJoin _ (fun t ht => pySplit_valid d t (List.dropLast_subset _ ht))]

/-! ## Scope-phase iteration helpers for the round-trip theorem -/

/-- Each narrowing step's oracle check, in sequence: token `t` is accepted
at the state reached by the earlier tokens (the `in_tree` test of
`handle_scoping_input`). -/
def narrowAccepted (env : ShellEnv J) : String → List String → Bool
  | _, [] => true
  | d, t :: ts =>
    env.inTree (pyStrip (treeCand d t)) && narrowAccepted env (set_scope d t) ts

/-- Each widening step's oracle check is negative (the unscope marker never
names a command-tree node), along the states reached by successive pops. -/
def widenOk (env : ShellEnv J) : String → Nat → Bool
  | _, 0 => true
  | d, n + 1 =>
    !(env.inTree (pyStrip (treeCand d env.sigils.unscope))) &&
      widenOk env (popScope d) n

/-- `n` successive pops of the scope. -/
def popN : String → Nat → String
  | d, 0 => d
  | d, n + 1 => popN (popScope d) n

/-- `n` successive `dropLast`. -/
def dropLastN : Nat → List α → List α
  | 0, l => l
  | n + 1, l => dropLastN n l.dropLast

theorem dropLastN_append (xs ys : List α) :
    dropLastN ys.length (xs ++ ys) = xs := by
  induction ys using List.reverseRecOn with
  | nil => simp [dropLastN]
  | append_singleton ys y ih =>
    rw [List.length_append, List.length_singleton, ← List.append_assoc]
    show dropLastN (ys.length) ((xs ++ ys) ++ [y]).dropLast = xs
    rw [List.dropLast_concat]
    exact ih

theorem pySplit_set_scope (d t : String) (ht : validTok t) :
    pySplit (set_scope d t) = pySplit d ++ [t] := by
  unfold set_scope
  by_cases hd : d = ""
  · rw [if_neg (by simp [hd])]
    subst hd
    have hempty : ("" ++ t : String) = t := by
      apply String.ext
      rw [strData_append]
      rfl
    rw [hempty, pySplit_token t ht, pySplit_empty]
    rfl
  · rw [if_pos hd, pySplit_append_space, pySplit_token t ht]

theorem pySplit_foldl_set_scope (ts : List String) (hts : ∀ t ∈ ts, validTok t) :
    ∀ d, pySplit (ts.foldl set_scope d) = pySplit d ++ ts := by
  induction ts with
  | nil => intro d; simp
  | cons t ts ih =>
    intro d
    show pySplit (ts.foldl set_scope (set_scope d t)) = _
    rw [ih (fun x hx => hts x (List.mem_cons_of_mem _ hx)),
      pySplit_set_scope d t (hts t (List.mem_cons_self _ _))]
    simp

theorem popN_spec : ∀ (n : Nat) (d : String), 1 ≤ n →
    popN d n = (if dropLastN n (pySplit d) = [] then ""
                else " " ++ pyJoin (dropLastN n (pySplit d))) := by
  intro n
  induction n with
  | zero => intro d h; omega
  | succ n ih =>
    intro d _
    cases n with
    | zero =>
      rw [popN, popN, popScope_spec]
      simp only [dropLastN]
    | succ m =>
      rw [popN, ih (popScope d) (by omega)]
      have hstep : dropLastN (m + 1) (pySplit (popScope d)) =
          dropLastN (m + 1 + 1) (pySplit d) := by
        rw [pySplit_popScope]
        simp only [dropLastN]
      rw [hstep]

theorem scopeLoop_narrow (env : ShellEnv J) (text : String) (htext : text ≠ "")
    (ts : List String) :
    ∀ st : ScopeOut, narrowAccepted env st.default_command ts = true →
      (scopeLoop env text ts st).default_command =
        ts.foldl set_scope st.default_command := by
  induction ts with
  | nil => intro st _; rfl
  | cons t ts ih =>
    intro st h
    rw [narrowAccepted] at h
    simp only [Bool.and_eq_true] at h
    rcases h with ⟨h1, h2⟩
    rw [scopeLoop]
    simp only [if_neg htext, h1, if_true]
    rw [ih _ (by simpa using h2)]
    rfl

theorem scopeLoop_widen (env : ShellEnv J) (text : String) (htext : text ≠ "") :
    ∀ (n : Nat) (st : ScopeOut),
      widenOk env st.default_command n = true →
      n ≤ (pySplit st.default_command).length →
      (scopeLoop env text (List.replicate n env.sigils.unscope) st).default_command
        = popN st.default_command n := by
  intro n
  induction n with
  | zero => intro st _ _; rfl
  | succ n ih =>
    intro st h hlen
    rw [widenOk] at h
    simp only [Bool.and_eq_true] at h
    rcases h with ⟨h1, h2⟩
    have h1' : env.inTree (pyStrip (treeCand st.default_command env.sigils.unscope))
        = false := by
      simpa using h1
    have hpos : 0 < (pySplit st.default_command).length := by omega
    rw [List.replicate_succ, scopeLoop]
    simp only [if_neg htext, h1', Bool.false_eq_true, if_false,
      beq_self_eq_true, Bool.true_and, decide_eq_true_eq, hpos, if_true]
    rw [ih _ (by simpa using h2)
      (by rw [pySplit_popScope, List.length_dropLast]; omega)]
    rfl

theorem strAppend_assoc (a b c : String) : a ++ b ++ c = a ++ (b ++ c) := by
  apply String.ext
  simp [strData_append]

theorem splitNLAux_length : ∀ (l cur : List Char),
    (splitNLAux l cur).length = l.count '\n' + 1 := by
  intro l
  induction l with
  | nil => intro cur; simp [splitNLAux]
  | cons c cs ih =>
    intro cur
    by_cases hc : c = '\n'
    · subst hc
      simp [splitNLAux, ih, List.count_cons]
    · simp [splitNLAux, hc, ih, List.count_cons]

theorem splitNL_length (s : String) : (splitNL s).length = countNL s + 1 := by
  unfold splitNL countNL
  rw [List.length_map, splitNLAux_length]

theorem pyCeilDiv_eq_ceil (a b : Nat) (hb : 0 < b) :
    (pyCeilDiv a b : Int) = ⌈(a : ℚ) / (b : ℚ)⌉ := by
  have h1 := Nat.div_add_mod (a + b - 1) b
  have h2 : (a + b - 1) % b < b := Nat.mod_lt _ hb
  have hub : a ≤ b * ((a + b - 1) / b) := by omega
  have hlb : b * ((a + b - 1) / b) < a + b := by omega
  have hbQ : (0 : ℚ) < (b : ℚ) := by exact_mod_cast hb
  have hubQ : (a : ℚ) ≤ (b : ℚ) * (((a + b - 1) / b : Nat) : ℚ) := by
    exact_mod_cast hub
  have hlbQ : (b : ℚ) * (((a + b - 1) / b : Nat) : ℚ) < (a : ℚ) + (b : ℚ) := by
    exact_mod_cast hlb
  have hcast : ((pyCeilDiv a b : Int) : ℚ) = (((a + b - 1) / b : Nat) : ℚ) := by
    unfold pyCeilDiv
    norm_cast
  symm
  rw [Int.ceil_eq_iff]
  constructor
  · rw [hcast, lt_div_iff₀ hbQ]
    linarith
  · rw [hcast, div_le_iff₀ hbQ]
    linarith

theorem exampleScan_no_flags :
    ∀ (ws : List String) (c : Nat) (si : Option Nat) (acc : String),
      (∀ w ∈ ws, pyStartsWith w "-" = false) →
      exampleScan ws c true si acc =
        (acc ++ pyConcat (ws.map (fun w => w ++ " ")), si) := by
  intro ws
  induction ws with
  | nil =>
    intro c si acc _
    simp [exampleScan, pyConcat, strAppend_empty]
  | cons w ws ih =>
    intro c si acc h
    have hw : pyStartsWith w "-" = false := h w (List.mem_cons_self _ _)
    rw [exampleScan]
    simp only [if_pos trivial, hw, Bool.false_eq_true, if_false, if_true]
    rw [ih (c + 1) si (acc ++ w ++ " ") (fun x hx => h x (List.mem_cons_of_mem _ hx))]
    simp [pyConcat, strAppend_assoc]

/-! ## Concrete instances used by counterexamples and witnesses -/

/-- A concrete shell environment (result values are plain strings): a
default-style sigil table, a two-node command tree, one stored example,
a caller-supplied output sink. -/
def envC : ShellEnv String where
  sigils := { outside := "#", exit_code := "$", query := "??",
              exampleSym := "::", scope := "%%", unscope := ".." }
  search := fun e r => SearchOutcome.ok ("R(" ++ e ++ "|" ++ r ++ ")")
  pystr := id
  dumps := fun s => "D(" ++ s ++ ")"
  dumpsStr := fun s => "J(" ++ s ++ ")"
  truthy := fun s => s ≠ ""
  inTree := fun s => s == "vm" || s == "a b"
  command_examples := fun c => if c == "vm" then some [("h", "az vm list")] else none
  invoke := fun _ => InvokeOutcome.ok (some ⟨some "res"⟩)
  hasOutputSink := true
  answers := []
  linesep := "\n"
  clear_word := "clear"
  history_clear_cmd := "echo -n \"\" >hist"

/-- `envC` with a jmespath evaluator raising a `JMESPathTypeError` — an
evaluation error that is *not* a `ParseError` subclass (as `jmespath.search`
raises for `abs('a')`). -/
def envTypeErr : ShellEnv String :=
  { envC with
    search := fun _ _ => SearchOutcome.err (QErr.other "In function abs(), invalid type for value: a, expected one of: number") }

/-- `envC` with a jmespath evaluator raising a `ParseError`. -/
def envParseErr : ShellEnv String :=
  { envC with
    search := fun _ _ => SearchOutcome.err (QErr.parse "Bad jmespath expression") }

/-- `envC` without a caller-supplied output sink. -/
def envNoSink : ShellEnv String := { envC with hasOutputSink := false }

/-- Fresh session state. -/
def st0 : ShellState String :=
  { default_command := "", last_exit := 0, last := none, user_feedback := false }

/-- Session state with an active scope `vm`. -/
def stV : ShellState String := { st0 with default_command := "vm" }

/-! ## Claim C2 — query-sigil injection into a multi-argument line -/

/-- Claim C2 counterexample: several arguments, a last result, and the
query sigil strictly inside the second argument — but the first argument
starts with the sigil, so the handler prints a usage message and performs
no Execution Dispatcher call; the claimed "replace and execute" behaviour
does not happen on this input. -/
theorem C2_counterexample :
    handle_jmespath_query envC "LAST" ["??a", "x??b"] =
      .ok ([.print (queryUsageMessage envC)], true) ∧
    (∀ s, Effect.execute s ∉ [Effect.print (queryUsageMessage envC)]) ∧
    hasSubstr "x??b" envC.sigils.query = true := by
  refine ⟨rfl, ?_, rfl⟩
  intro s
  simp

/-- Claim C2 (amended): with several arguments, a last result, the query
sigil occurring in at least one argument and the first argument *not*
starting with the sigil, the handler replaces in each argument the longest
suffix starting at the sigil with the string form of the query's
evaluation against the last result (`sub_result`: a bare sigil yields
`str(last_result)`, sigil+expression yields the evaluated sub-result's
string form), re-serialises each argument with `json.dumps`, joins the
line with spaces, and passes it to the Execution Dispatcher
(`cli_execute`) instead of printing it. -/
theorem C2_query_injection_executes {J : Type} (env : ShellEnv J) (j : J)
    (a : String) (rest : List String) (subs : List String)
    (hrest : rest ≠ [])
    (hstart : pyStartsWith a env.sigils.query = false)
    (hsig : (a :: rest).any (fun x => hasSubstr x env.sigils.query) = true)
    (hsubs : (a :: rest).mapM (sub_result env j) = .ok subs) :
    handle_jmespath_query env j (a :: rest) =
      .ok ([.execute (pyJoin subs)], true) := by
  have hre : rest.isEmpty = false := by
    cases rest
    · exact absurd rfl hrest
    · rfl
  unfold handle_jmespath_query
  simp only [queryTryBody, hre, Bool.false_eq_true, if_false, hstart, hsubs]

/-- Closed witness for `C2_query_injection_executes` at a concrete input. -/
theorem C2_query_injection_executes_witness :
    ((["show", "--name", "??name"] : List String) ≠ [] ∧
     pyStartsWith "group" envC.sigils.query = false ∧
     (["group", "show", "--name", "??name"].any
       (fun x => hasSubstr x envC.sigils.query)) = true ∧
     ["group", "show", "--name", "??name"].mapM (sub_result envC "LAST") =
       .ok ["J(group)", "J(show)", "J(--name)", "J(R(name|LAST))"]) ∧
    handle_jmespath_query envC "LAST" ["group", "show", "--name", "??name"] =
      .ok ([.execute (pyJoin ["J(group)", "J(show)", "J(--name)", "J(R(name|LAST))"])],
        true) :=
  ⟨⟨by decide, rfl, rfl, rfl⟩,
   C2_query_injection_executes envC "LAST" "group" ["show", "--name", "??name"]
     ["J(group)", "J(show)", "J(--name)", "J(R(name|LAST))"]
     (by decide) rfl rfl rfl⟩

/-! ## Claim C5 — Execution Dispatcher on a normal return -/

/-- Claim C5 counterexample: a caller-supplied output sink exists and the
engine returns a result value, yet `last` is *not* updated (it stays
`none`) — the source stores `self.last = result` only on the
default-formatter branch. -/
theorem C5_counterexample :
    envC.hasOutputSink = true ∧
    envC.invoke (parse_quotes "vm list") = .ok (some ⟨some "res"⟩) ∧
    (cli_execute envC st0 "vm list").2 = [Effect.sinkWrite] ∧
    (cli_execute envC st0 "vm list").1.last_exit = 0 ∧
    (cli_execute envC st0 "vm list").1.last = none :=
  ⟨rfl, rfl, rfl, rfl, rfl⟩

/-- Claim C5 (amended): on a normal engine return with a result value
present (and no progress flag), the dispatcher sets `last_exit` to 0 and
routes the result to the caller-supplied output sink when one exists,
otherwise to the default formatter; the result object is stored into
`last` only on the formatter path — a caller-supplied sink leaves `last`
unchanged. -/
theorem C5_dispatcher_normal_return {J : Type} (env : ShellEnv J)
    (st : ShellState J) (cmd : String) (robj : ResObj J) (j : J)
    (hprog : (parse_quotes cmd).contains "--progress" = false)
    (hinv : env.invoke (parse_quotes cmd) = .ok (some robj))
    (hres : robj.result = some j) :
    (cli_execute env st cmd).1.last_exit = 0 ∧
    (env.hasOutputSink = true →
      Effect.sinkWrite ∈ (cli_execute env st cmd).2 ∧
      (cli_execute env st cmd).1.last = st.last) ∧
    (env.hasOutputSink = false →
      Effect.formatterOut ∈ (cli_execute env st cmd).2 ∧
      (cli_execute env st cmd).1.last = some robj) := by
  have hsome : robj.result.isSome = true := by rw [hres]; rfl
  unfold cli_execute
  simp only [hprog, Bool.false_eq_true, if_false, hinv, hsome]
  cases hsink : env.hasOutputSink <;>
    simp only [Bool.false_eq_true, if_false, if_true] <;>
    split_ifs <;>
    simp

/-- Closed witness for `C5_dispatcher_normal_return` at a concrete input. -/
theorem C5_dispatcher_normal_return_witness :
    ((parse_quotes "vm list").contains "--progress" = false ∧
     envNoSink.invoke (parse_quotes "vm list") = .ok (some ⟨some "res"⟩) ∧
     (⟨some "res"⟩ : ResObj String).result = some "res") ∧
    ((cli_execute envNoSink st0 "vm list").1.last_exit = 0 ∧
     (envNoSink.hasOutputSink = true →
       Effect.sinkWrite ∈ (cli_execute envNoSink st0 "vm list").2 ∧
       (cli_execute envNoSink st0 "vm list").1.last = st0.last) ∧
     (envNoSink.hasOutputSink = false →
       Effect.formatterOut ∈ (cli_execute envNoSink st0 "vm list").2 ∧
       (cli_execute envNoSink st0 "vm list").1.last = some ⟨some "res"⟩)) :=
  ⟨⟨rfl, rfl, rfl⟩,
   C5_dispatcher_normal_return envNoSink st0 "vm list" ⟨some "res"⟩ "res" rfl rfl rfl⟩

/-! ## Claim C6 — error handling of the query handler -/

/-- Claim C6 counterexample: the evaluator raises a `JMESPathTypeError`
(an evaluation error that is not a `ParseError` or `CLIError`); the
handler's `except` clause does not catch it — no "Invalid Query Input"
message is printed and the exception escapes the handler. -/
theorem C6_counterexample :
    handle_jmespath_query envTypeErr "LAST" ["??abs(@)"] =
      .error (QErr.other
        "In function abs(), invalid type for value: a, expected one of: number") := by
  rfl

/-- Claim C6 (amended): an error raised inside the query handler that is a
jmespath `ParseError` or a `CLIError` is caught and reported as
`"Invalid Query Input: <message>"` and the line is treated as fully
handled (`continue_flag = True`); evaluation errors of other exception
classes propagate out of the handler uncaught. -/
theorem C6_invalid_query_reported {J : Type} (env : ShellEnv J) (j : J)
    (args : List String) (m : String)
    (h : queryTryBody env j args = .error (.parse m) ∨
         queryTryBody env j args = .error (.cli m)) :
    handle_jmespath_query env j args =
      .ok ([.print ("Invalid Query Input: " ++ m)], true) := by
  unfold handle_jmespath_query
  rcases h with h | h <;> rw [h]

/-- Closed witness for `C6_invalid_query_reported` at a concrete input. -/
theorem C6_invalid_query_reported_witness :
    (queryTryBody envParseErr "LAST" ["??["] =
       .error (.parse "Bad jmespath expression") ∨
     queryTryBody envParseErr "LAST" ["??["] =
       .error (.cli "Bad jmespath expression")) ∧
    handle_jmespath_query envParseErr "LAST" ["??["] =
      .ok ([.print ("Invalid Query Input: " ++ "Bad jmespath expression")], true) :=
  ⟨Or.inl rfl,
   C6_invalid_query_reported envParseErr "LAST" ["??["] "Bad jmespath expression"
     (Or.inl rfl)⟩

/-! ## Claim C7 — widening an already-empty scope -/

/-- Claim C7 counterexample: applying the unscope marker with an empty
`default_command` leaves it empty but prints *nothing* — the branch that
would print "Scope must be a valid command" is skipped because the line
contains the unscope marker, so the claimed diagnostic never appears. -/
theorem C7_counterexample :
    (handle_scoping_input envC false "%%.." "%%.." "").default_command = "" ∧
    (handle_scoping_input envC false "%%.." "%%.." "").prints = [] :=
  ⟨rfl, rfl⟩

/-- Claim C7 (amended): a widen-by-unscope-marker operation on an empty
`default_command` is a no-op on `default_command` and prints no message at
all (the pop branch is skipped for lack of tokens, and the "Scope must be
a valid command" diagnostic is suppressed because the unscope marker
occurs in the text). -/
theorem C7_widen_empty_noop {J : Type} (env : ShellEnv J) (cf : Bool)
    (cmd text : String)
    (hds : pySplit (partitionAfter text env.sigils.scope) = [env.sigils.unscope])
    (htext : text ≠ "")
    (htree : env.inTree (pyStrip (treeCand "" env.sigils.unscope)) = false)
    (hhas : hasSubstr text env.sigils.unscope = true) :
    (handle_scoping_input env cf cmd text "").default_command = "" ∧
    (handle_scoping_input env cf cmd text "").prints = [] := by
  unfold handle_scoping_input
  rw [hds]
  simp only [List.isEmpty_cons, Bool.false_eq_true, if_false]
  rw [scopeLoop]
  simp only [if_neg htext, htree, Bool.false_eq_true, if_false,
    pySplit_empty, List.length_nil, gt_iff_lt, lt_self_iff_false,
    decide_False, Bool.and_false, hhas, Bool.not_true]
  exact ⟨rfl, rfl⟩

/-- Closed witness for `C7_widen_empty_noop` at a concrete input. -/
theorem C7_widen_empty_noop_witness :
    (pySplit (partitionAfter "%%.." envC.sigils.scope) = [envC.sigils.unscope] ∧
     ("%%.." : String) ≠ "" ∧
     envC.inTree (pyStrip (treeCand "" envC.sigils.unscope)) = false ∧
     hasSubstr "%%.." envC.sigils.unscope = true) ∧
    ((handle_scoping_input envC false "%%.." "%%.." "").default_command = "" ∧
     (handle_scoping_input envC false "%%.." "%%.." "").prints = []) :=
  ⟨⟨rfl, by decide, rfl, rfl⟩,
   C7_widen_empty_noop envC false "%%.." "%%.." rfl (by decide) rfl rfl⟩

/-! ## Claim C10 — when a line is recorded into history -/

/-- Claim C10 counterexample: the scope-narrowing line `%%vm` is submitted
while `default_command` is empty; the claim then requires the line to be
appended to history, but classification narrows the scope first and the
append is skipped — so "appended iff empty at submission time" fails. -/
theorem C10_counterexample :
    st0.default_command = "" ∧
    (∃ o : RunIter String, run_iteration envC st0 "%%vm" = .ok o ∧
      o.historyAppended = none ∧ o.state.default_command = "vm") :=
  ⟨rfl, ⟨_, rfl, rfl, rfl⟩⟩

/-- Claim C10 (amended): a nonempty submitted line is appended to history
exactly when `default_command` is empty *after* the line's classification
(which may itself have narrowed or widened the scope); while a scope
remains active after classification, nothing is recorded. -/
theorem C10_history_after_classification {J : Type} (env : ShellEnv J)
    (st : ShellState J) (text : String) (r : SCResult J)
    (htext : text ≠ "")
    (hr : special_cases env st text false = .ok r) :
    ∃ o : RunIter J, run_iteration env st text = .ok o ∧
      o.historyAppended =
        (if r.state.default_command == "" then some text else none) := by
  have h0 : (text == "") = false := by
    cases heq : text == ""
    · rfl
    · exact absurd (by simpa using heq) htext
  unfold run_iteration
  rw [h0]
  simp only [Bool.false_eq_true, if_false]
  rw [hr]
  obtain ⟨bf, cf, os, cm, stt, ef⟩ := r
  cases bf <;> cases cf <;> cases os <;> exact ⟨_, rfl, rfl⟩

/-- Closed witness for `C10_history_after_classification` at a concrete
input: the widening line `%%..` clears the scope, so it *is* recorded. -/
theorem C10_history_after_classification_witness :
    (("%%.." : String) ≠ "") ∧
    (∃ r : SCResult String, special_cases envC stV "%%.." false = .ok r ∧
      r.state.default_command = "" ∧
      (∃ o : RunIter String, run_iteration envC stV "%%.." = .ok o ∧
        o.historyAppended =
          (if r.state.default_command == "" then some "%%.." else none))) := by
  refine ⟨by decide, ⟨_, rfl, rfl, ?_⟩⟩
  exact C10_history_after_classification envC stV "%%.." _ (by decide) rfl

/-! ## Claim C1 — default dispatch prepends the scope prefix -/

/-- Claim C1: when no sigil or special case intercepts classification (all
the classifier's guards are false for the line, including the leading-`az`
strip) and `default_command` is non-empty, the classifier leaves all flags
unset and the command dispatched to the external engine is exactly
`default_command ++ " " ++ line`. -/
theorem C1_default_dispatch {J : Type} (env : ShellEnv J) (st : ShellState J)
    (line : String)
    (hdc : st.default_command ≠ "")
    (hne : pyStrip line ≠ "")
    (haz : (pyLower (beforeFirstSpace line) == "az") = false)
    (hquit : (pyStrip line == "quit" || pyStrip line == "exit") = false)
    (hch : (pyStrip line == "clear-history") = false)
    (hcw : (pyStrip line == env.clear_word) = false)
    (hout : (strTake (pyStrip line) 1 == env.sigils.outside) = false)
    (hec : (strTake (pyStrip line) 1 == env.sigils.exit_code) = false)
    (hq : (hasSubstr (pyStrip line) env.sigils.query && lastTruthy env st) = false)
    (hv : ((parse_quotes line).headD "" == "--version" ||
           (parse_quotes line).headD "" == "-v") = false)
    (hpipe : (hasSubstr (st.default_command ++ " " ++ line) "|" ||
              hasSubstr (st.default_command ++ " " ++ line) ">") = false)
    (hex : hasSubstr (st.default_command ++ " " ++ line) env.sigils.exampleSym = false)
    (hscope : (strLen (pyStrip line) > 2 &&
               strTake (pyStrip line) 2 == env.sigils.scope) = false) :
    special_cases env st line false =
      .ok ⟨false, false, false, st.default_command ++ " " ++ line, st, []⟩ ∧
    (∃ o : RunIter J, run_iteration env st line = .ok o ∧
      o.dispatch = .engine (st.default_command ++ " " ++ line)) := by
  have hsc : special_cases env st line false =
      .ok ⟨false, false, false, st.default_command ++ " " ++ line, st, []⟩ := by
    unfold special_cases
    simp only [haz, Bool.and_false, Bool.false_eq_true, if_false, hdc, hne,
      ne_eq, not_false_eq_true, if_true, hquit, hch, hcw, hout, hec, hq, hv,
      hpipe, hex, hscope, ite_false, ite_true, not_true_eq_false]
  refine ⟨hsc, ?_⟩
  have h0 : (line == "") = false := by
    cases heq : line == ""
    · rfl
    · have hline : line = "" := by simpa using heq
      subst hline
      exact absurd rfl hne
  unfold run_iteration
  rw [h0]
  simp only [Bool.false_eq_true, if_false]
  rw [hsc]
  exact ⟨_, rfl, rfl⟩

/-- Closed witness for `C1_default_dispatch` at a concrete input. -/
theorem C1_default_dispatch_witness :
    (stV.default_command ≠ "" ∧ pyStrip "list" ≠ "") ∧
    special_cases envC stV "list" false =
      .ok ⟨false, false, false, stV.default_command ++ " " ++ "list", stV, []⟩ ∧
    (∃ o : RunIter String, run_iteration envC stV "list" = .ok o ∧
      o.dispatch = .engine (stV.default_command ++ " " ++ "list")) :=
  ⟨⟨by decide, by decide⟩,
   C1_default_dispatch envC stV "list" (by decide) (by decide) rfl rfl rfl rfl
     rfl rfl rfl rfl rfl rfl rfl⟩

/-! ## Claim C4 — the leading `az` word -/

/-- Claim C4 counterexample: the line `az quit` is *not* classified like
`quit`: the quit/exit test runs on the original stripped line (`"az quit"`),
so the shell does not terminate — it strips the `az` and dispatches `quit`
to the engine — whereas the bare line `quit` sets the break flag. -/
theorem C4_counterexample :
    (∃ r : SCResult String, special_cases envC st0 "az quit" false = .ok r ∧
      r.break_flag = false ∧ r.continue_flag = false ∧ r.outside = false ∧
      r.cmd = "quit") ∧
    (∃ r : SCResult String, special_cases envC st0 "quit" false = .ok r ∧
      r.break_flag = true) :=
  ⟨⟨_, rfl, rfl, rfl, rfl, rfl⟩, ⟨_, rfl, rfl⟩⟩

/-- Claim C4 (amended): when the line's first word, lowered, is `az`, the
word is removed from the *dispatched* command text — before
`default_command` is prepended — but every classification check (quit/exit,
sigils, version, pipe, example, scope) is still evaluated against the
original line (for the pipe/example checks, against the original-line
remainder with `default_command` prepended), not against the remainder as
if the prefix had never been typed.  Concretely, on the default path the
dispatched command is `default_command ⧺ remainder` with
`remainder = ' '.join(line.split()[1:])`. -/
theorem C4_az_strip_dispatch {J : Type} (env : ShellEnv J) (st : ShellState J)
    (line : String)
    (hne : pyStrip line ≠ "")
    (haz : (pyLower (beforeFirstSpace line) == "az") = true)
    (hquit : (pyStrip line == "quit" || pyStrip line == "exit") = false)
    (hch : (pyStrip line == "clear-history") = false)
    (hcw : (pyStrip line == env.clear_word) = false)
    (hout : (strTake (pyStrip line) 1 == env.sigils.outside) = false)
    (hec : (strTake (pyStrip line) 1 == env.sigils.exit_code) = false)
    (hq : (hasSubstr (pyStrip line) env.sigils.query && lastTruthy env st) = false)
    (hv : ((parse_quotes line).headD "" == "--version" ||
           (parse_quotes line).headD "" == "-v") = false)
    (hpipe : (hasSubstr (if st.default_command ≠ "" then
                st.default_command ++ " " ++ pyJoin ((pySplit line).drop 1)
              else pyJoin ((pySplit line).drop 1)) "|" ||
              hasSubstr (if st.default_command ≠ "" then
                st.default_command ++ " " ++ pyJoin ((pySplit line).drop 1)
              else pyJoin ((pySplit line).drop 1)) ">") = false)
    (hex : hasSubstr (if st.default_command ≠ "" then
             st.default_command ++ " " ++ pyJoin ((pySplit line).drop 1)
           else pyJoin ((pySplit line).drop 1)) env.sigils.exampleSym = false)
    (hscope : (strLen (pyStrip line) > 2 &&
               strTake (pyStrip line) 2 == env.sigils.scope) = false) :
    special_cases env st line false =
      .ok ⟨false, false, false,
           (if st.default_command ≠ "" then
              st.default_command ++ " " ++ pyJoin ((pySplit line).drop 1)
            else pyJoin ((pySplit line).drop 1)), st, []⟩ := by
  unfold special_cases
  simp only [haz, hne, ne_eq, not_false_eq_true, decide_True, Bool.true_and,
    Bool.and_true, if_true, hquit, hch, hcw, hout, hec, hq, hv, hpipe, hex,
    hscope, Bool.false_eq_true, if_false, ite_false, ite_true,
    not_true_eq_false]

/-- Closed witness for `C4_az_strip_dispatch` at a concrete input. -/
theorem C4_az_strip_dispatch_witness :
    (pyStrip "az vm list" ≠ "" ∧
     (pyLower (beforeFirstSpace "az vm list") == "az") = true) ∧
    special_cases envC stV "az vm list" false =
      .ok ⟨false, false, false,
           (if stV.default_command ≠ "" then
              stV.default_command ++ " " ++ pyJoin ((pySplit "az vm list").drop 1)
            else pyJoin ((pySplit "az vm list").drop 1)), stV, []⟩ :=
  ⟨⟨by decide, rfl⟩,
   C4_az_strip_dispatch envC stV "az vm list" (by decide) rfl rfl rfl rfl rfl
     rfl rfl rfl rfl rfl rfl⟩

/-! ## Claim C8 — tutorial stepper with no fillable tokens -/

theorem strEmpty_append (a : String) : "" ++ a = a := by
  apply String.ext
  rw [strData_append, strData_empty, List.nil_append]

/-- Claim C8 counterexample: the stored example literal is `az vm list`,
which has no flag-marked token, but the stepper returns `"vm list "` —
the `az` substring is deleted and the tokens are re-joined each with a
trailing space — not the literal text unchanged. -/
theorem C8_counterexample :
    envC.command_examples "vm" = some [("h", "az vm list")] ∧
    (handle_example envC "" "vm :: 1" false).2 = .ok ("vm list ", false) ∧
    "vm list " ≠ "az vm list" :=
  ⟨rfl, rfl, by decide⟩

/-- Claim C8 (amended): for an example whose processed text — newlines
removed, every occurrence of the substring `az` removed — contains no
flag-marked (`-`-starting) token, `handle_example` never reaches an
interactive prompt (the result is the same for every transcript) and
returns the processed text's whitespace tokens re-joined, each followed by
a single space, rather than the literal example text unchanged. -/
theorem C8_no_fill_shortcircuit {J : Type} (env : ShellEnv J)
    (d text cmdp ns e : String) (n : Int) (exs : List (String × String))
    (flag : Bool)
    (hcmd : pyRStrip (partitionBefore text env.sigils.exampleSym) = cmdp)
    (hns : pyStrip (partitionAfter text env.sigils.exampleSym) = ns)
    (hparse : pyParseInt ns = some n)
    (hexs : env.command_examples cmdp = some exs)
    (hbound : 0 ≤ n - 1 ∧ n - 1 < (exs.length : Int))
    (he : pyReplace (pyReplace (exs.getD (n - 1).toNat ("", "")).2 "\n" "")
            "az" "" = e)
    (hnoflag : ∀ w ∈ pySplit e, pyStartsWith w "-" = false) :
    handle_example env d text flag =
      ([], .ok (pyConcat ((pySplit e).map (fun w => w ++ " ")), flag)) := by
  unfold handle_example
  rw [hcmd, hns]
  simp only [hparse, hexs]
  rw [if_pos hbound]
  simp only [he]
  rw [exampleScan_no_flags (pySplit e) 0 none "" hnoflag]
  unfold example_repl
  simp [strEmpty_append]

/-- Closed witness for `C8_no_fill_shortcircuit` at a concrete input. -/
theorem C8_no_fill_shortcircuit_witness :
    (pyRStrip (partitionBefore "vm :: 1" envC.sigils.exampleSym) = "vm" ∧
     pyStrip (partitionAfter "vm :: 1" envC.sigils.exampleSym) = "1" ∧
     pyParseInt "1" = some 1 ∧
     envC.command_examples "vm" = some [("h", "az vm list")] ∧
     (0 ≤ (1 : Int) - 1 ∧ (1 : Int) - 1 < (([("h", "az vm list")].length : Int))) ∧
     pyReplace (pyReplace (([("h", "az vm list")].getD ((1 : Int) - 1).toNat
       ("", "")).2) "\n" "") "az" "" = " vm list" ∧
     (∀ w ∈ pySplit " vm list", pyStartsWith w "-" = false)) ∧
    handle_example envC "" "vm :: 1" false =
      ([], .ok (pyConcat ((pySplit " vm list").map (fun w => w ++ " ")), false)) :=
  ⟨⟨rfl, rfl, rfl, rfl, by decide, rfl, by decide⟩,
   C8_no_fill_shortcircuit envC "" "vm :: 1" "vm" "1" " vm list" 1
     [("h", "az vm list")] false rfl rfl rfl rfl (by decide) rfl (by decide)⟩

/-! ## Claim C3 — scope narrowing then widening -/

/-- Claim C3 counterexample: with `default_command = "a"`, narrowing by the
accepted token `b` (`%%b`) and then widening once (`%%..`) yields `" a"` —
the token sequence is restored, but the string gains a leading space, so
`default_command` is *not* restored to exactly its prior value. -/
theorem C3_counterexample :
    (handle_scoping_input envC false "%%b" "%%b" "a").default_command = "a b" ∧
    (handle_scoping_input envC false "%%.." "%%.."
      (handle_scoping_input envC false "%%b" "%%b" "a").default_command).default_command
      = " a" ∧
    (" a" : String) ≠ "a" :=
  ⟨rfl, rfl, by decide⟩

/-- Claim C3 (amended): narrowing the scope by an accepted nonempty token
sequence and then widening by the unscope marker once per narrowed token
restores the *token sequence* of `default_command`, but not the exact
string: the result is the space-join of the prior tokens preceded by a
single space, and equals the prior value exactly only when the prior value
had no tokens (then the result is `""`). -/
theorem C3_narrow_widen_roundtrip {J : Type} (env : ShellEnv J)
    (d0 cmdA cmdB t1 t2 : String) (ts : List String)
    (hne : ts ≠ [])
    (h1 : pySplit (partitionAfter t1 env.sigils.scope) = ts)
    (ht1 : t1 ≠ "")
    (hacc : narrowAccepted env d0 ts = true)
    (h2 : pySplit (partitionAfter t2 env.sigils.scope) =
      List.replicate ts.length env.sigils.unscope)
    (ht2 : t2 ≠ "")
    (hwid : widenOk env (ts.foldl set_scope d0) ts.length = true) :
    (handle_scoping_input env false cmdB t2
      (handle_scoping_input env false cmdA t1 d0).default_command).default_command
      = (if pySplit d0 = [] then "" else " " ++ pyJoin (pySplit d0)) := by
  have hts : ∀ t ∈ ts, validTok t := by
    intro t ht
    rw [← h1] at ht
    exact pySplit_valid _ t ht
  have hd1 : (handle_scoping_input env false cmdA t1 d0).default_command
      = ts.foldl set_scope d0 := by
    unfold handle_scoping_input
    rw [h1]
    have hemp : ts.isEmpty = false := by
      cases ts
      · exact absurd rfl hne
      · rfl
    simp only [hemp, Bool.false_eq_true, if_false]
    exact scopeLoop_narrow env t1 ht1 ts _ hacc
  rw [hd1]
  unfold handle_scoping_input
  rw [h2]
  have hpos : 0 < ts.length := List.length_pos.mpr hne
  have hrep : (List.replicate ts.length env.sigils.unscope).isEmpty = false := by
    obtain ⟨k, hk⟩ : ∃ k, ts.length = k + 1 := ⟨ts.length - 1, by omega⟩
    rw [hk, List.replicate_succ]
    rfl
  simp only [hrep, Bool.false_eq_true, if_false]
  have hlen : ts.length ≤ (pySplit (ts.foldl set_scope d0)).length := by
    rw [pySplit_foldl_set_scope ts hts d0, List.length_append]
    omega
  rw [scopeLoop_widen env t2 ht2 ts.length _ hwid hlen]
  rw [popN_spec ts.length _ hpos]
  rw [pySplit_foldl_set_scope ts hts d0, dropLastN_append]

/-- Closed witness for `C3_narrow_widen_roundtrip` at a concrete input. -/
theorem C3_narrow_widen_roundtrip_witness :
    ((["vm"] : List String) ≠ [] ∧
     pySplit (partitionAfter "%%vm" envC.sigils.scope) = ["vm"] ∧
     ("%%vm" : String) ≠ "" ∧
     narrowAccepted envC "" ["vm"] = true ∧
     pySplit (partitionAfter "%%.." envC.sigils.scope) =
       List.replicate (["vm"] : List String).length envC.sigils.unscope ∧
     ("%%.." : String) ≠ "" ∧
     widenOk envC ((["vm"] : List String).foldl set_scope "")
       (["vm"] : List String).length = true) ∧
    (handle_scoping_input envC false "c2" "%%.."
      (handle_scoping_input envC false "c1" "%%vm" "").default_command).default_command
      = (if pySplit "" = [] then "" else " " ++ pyJoin (pySplit "")) :=
  ⟨⟨by decide, rfl, by decide, by decide, rfl, by decide, by decide⟩,
   C3_narrow_widen_roundtrip envC "" "c1" "c2" "%%vm" "%%.." ["vm"]
     (by decide) rfl (by decide) (by decide) rfl (by decide) (by decide)⟩

/-! ## Claim C9 — pagination of the example listing -/

/-- Claim C9: when pagination triggers (more newlines than `0.3·R` and more
than 3 rows), with `L = floor(0.3·R)` lines per excerpt the page counter
shown is `ceil(N / L)` (proved equal to the rational ceiling), and page
`P`'s slice begins at line `(P-1)·L` and covers exactly the example lines
of the window `[(P-1)·L, min(P·L, N))` — when the slice reaches the end of
the text it additionally carries the single remainder entry that follows
the final newline.  `P` ranges over pages with `(P-1)·L ≤ N`; past that
bound the source's clamping loop does not terminate. -/
theorem C9_pagination (les : List (List String)) (R P N L : Nat)
    (hN : countNL (exampleText les) = N)
    (hL : 3 * R / 10 = L)
    (htrig : 10 * N > 3 * R)
    (hR : R > 3)
    (_hP : 1 ≤ P)
    (hb : (P - 1) * L ≤ N) :
    ∃ S : List String,
      space_examples les R P =
        some (pyJoinWith "\n" S ++ "\n" ++
          ("\n" ++ toString P ++ "/" ++ toString (pyCeilDiv N L)) ++
          " CTRL+Y (^) CTRL+N (v)", P) ∧
      (pyCeilDiv N L : Int) = ⌈(N : ℚ) / (L : ℚ)⌉ ∧
      S.take (min (P * L) N - (P - 1) * L) =
        (((splitNL (exampleText les)).take N).drop ((P - 1) * L)).take
          (min (P * L) N - (P - 1) * L) ∧
      S.length = (if P * L < N then P * L - (P - 1) * L
                  else N + 1 - (P - 1) * L) := by
  have hLpos : 0 < L := by
    have h12 : (12 : Nat) / 10 ≤ 3 * R / 10 := Nat.div_le_div_right (by omega)
    omega
  have hglen : (splitNL (exampleText les)).length = N + 1 := by
    rw [splitNL_length, hN]
  have hceil : (pyCeilDiv N L : Int) = ⌈(N : ℚ) / (L : ℚ)⌉ :=
    pyCeilDiv_eq_ceil N L hLpos
  unfold space_examples
  simp only [hN, hL]
  have hcond : (decide (10 * N > 3 * R) && decide (R > 3)) = true := by
    simp [htrig, hR]
  rw [if_pos hcond]
  by_cases hlt : P * L < N
  · rw [if_pos hlt]
    refine ⟨((splitNL (exampleText les)).drop ((P - 1) * L)).take
      (P * L - (P - 1) * L), rfl, hceil, ?_, ?_⟩
    · have hmin : min (P * L) N = P * L := by omega
      rw [hmin, List.take_take, List.drop_take, List.take_take]
      congr 1
      omega
    · rw [if_pos hlt, List.length_take, List.length_drop, hglen]
      omega
  · rw [if_neg hlt, if_neg (by omega : ¬ ((P - 1) * L > N))]
    refine ⟨(splitNL (exampleText les)).drop ((P - 1) * L), rfl, hceil, ?_, ?_⟩
    · have hmin : min (P * L) N = N := by omega
      rw [hmin, List.drop_take, List.take_take]
      congr 1
      omega
    · rw [if_neg hlt, List.length_drop, hglen]

/-- Closed witness for `C9_pagination` at a concrete input: two stored
examples yield 7 newlines; 10 rows give 3-line pages, so page 2 of 3
covers lines 3, 4 and 5. -/
theorem C9_pagination_witness :
    (countNL (exampleText [["h1\n", "b1\nb2\nb3\n"], ["h2\n", "b4\nb5\n"]]) = 7 ∧
     3 * 10 / 10 = 3 ∧ 10 * 7 > 3 * 10 ∧ 10 > 3 ∧ 1 ≤ 2 ∧ (2 - 1) * 3 ≤ 7) ∧
    (∃ S : List String,
      space_examples [["h1\n", "b1\nb2\nb3\n"], ["h2\n", "b4\nb5\n"]] 10 2 =
        some (pyJoinWith "\n" S ++ "\n" ++
          ("\n" ++ toString 2 ++ "/" ++ toString (pyCeilDiv 7 3)) ++
          " CTRL+Y (^) CTRL+N (v)", 2) ∧
      (pyCeilDiv 7 3 : Int) = ⌈(7 : ℚ) / (3 : ℚ)⌉ ∧
      S.take (min (2 * 3) 7 - (2 - 1) * 3) =
        (((splitNL (exampleText [["h1\n", "b1\nb2\nb3\n"], ["h2\n", "b4\nb5\n"]])).take
          7).drop ((2 - 1) * 3)).take (min (2 * 3) 7 - (2 - 1) * 3) ∧
      S.length = (if 2 * 3 < 7 then 2 * 3 - (2 - 1) * 3
                  else 7 + 1 - (2 - 1) * 3)) :=
  ⟨⟨rfl, rfl, by decide, by decide, by decide, by decide⟩,
   C9_pagination [["h1\n", "b1\nb2\nb3\n"], ["h2\n", "b4\nb5\n"]] 10 2 7 3
     rfl rfl (by decide) (by decide) (by decide) (by decide)⟩
